import Mathlib

/-!
Verification of the article-generation workflow (`file_gen` repository).

The Python sources are shallowly embedded as executable Lean definitions:
pure helpers become Lean functions, the orchestration pipeline becomes a
function over an explicit environment describing collaborator outcomes
(language-model reply, object-store transport result, database flush
result, fresh random token) together with explicit database and
object-store states.  Exceptions become `Except` values.
-/

/-! ## Python string primitives

`str.strip`, `str.split("\n")`, `"\n".join`, and the whitespace class used
by `\s` in the regexes of `gpt_formatter_service.py`, modelled over
`List Char` (ASCII whitespace, which covers every character the code's
regexes and the claims exercise). -/

/-- Python's whitespace class restricted to ASCII: the characters matched
by `\s` and stripped by `str.strip()`. -/
def pySpace (c : Char) : Bool :=
  c = ' ' || c = '\t' || c = '\n' || c = '\r' || c = '\x0b' || c = '\x0c'

/-- Remove leading whitespace (Python `lstrip`). -/
def pyLStrip (cs : List Char) : List Char := cs.dropWhile pySpace

/-- Remove trailing whitespace (Python `rstrip`). -/
def pyRStrip (cs : List Char) : List Char :=
  (cs.reverse.dropWhile pySpace).reverse

/-- Python `str.strip()`: drop whitespace at both ends. -/
def pyStrip (cs : List Char) : List Char := pyLStrip (pyRStrip cs)

/-- Python `s.split("\n")`: split into lines at newline characters;
the empty string yields one empty line, matching `"".split("\n") == [""]`. -/
def splitNl : List Char → List (List Char)
  | [] => [[]]
  | c :: rest =>
    if c = '\n' then [] :: splitNl rest
    else
      match splitNl rest with
      | [] => [[c]]
      | l :: ls => (c :: l) :: ls

/-- Python `"\n".join(lines)`. -/
def joinNl : List (List Char) → List Char
  | [] => []
  | [l] => l
  | l :: ls => l ++ '\n' :: joinNl ls

/-! ## `GPTFormatterService._clean_gpt_artifacts`

The Python body is four statements: two `re.sub` fence removals, a
line-by-line preamble scan, a blank-run collapse, and a final
`str.strip()`.  Each is embedded below in the same order.

The pattern ```` ```html\s*\n? ```` (IGNORECASE) matches the literal fence
opener followed by the maximal whitespace run (greedy `\s*` already
swallows any newline, so the trailing `\n?` matches empty), and `re.sub`
resumes scanning right after each removed match; the scanners below
reproduce exactly that. -/

/-- The four tag characters of the fence opener, case-insensitively
(`re.IGNORECASE` on the ASCII pattern `html`). -/
def htmlTagChars (a b c d : Char) : Bool :=
  (a = 'h' || a = 'H') && (b = 't' || b = 'T') &&
  (c = 'm' || c = 'M') && (d = 'l' || d = 'L')

/-- Scanner for `re.sub(r"```html\s*\n?", "", html, flags=re.IGNORECASE)`.
When `skip` is set the scanner is inside the `\s*` run of a match just
removed and keeps dropping whitespace. -/
def subFenceHtmlGo (skip : Bool) : List Char → List Char
  | [] => []
  | '`' :: '`' :: '`' :: a :: b :: c :: d :: rest =>
    if htmlTagChars a b c d then subFenceHtmlGo true rest
    else '`' :: subFenceHtmlGo false ('`' :: '`' :: a :: b :: c :: d :: rest)
  | c :: rest =>
    if skip && pySpace c then subFenceHtmlGo true rest
    else c :: subFenceHtmlGo false rest

/-- Scanner for `re.sub(r"```\s*\n?", "", html)`. -/
def subFence3Go (skip : Bool) : List Char → List Char
  | [] => []
  | '`' :: '`' :: '`' :: rest => subFence3Go true rest
  | c :: rest =>
    if skip && pySpace c then subFence3Go true rest
    else c :: subFence3Go false rest

/-- Both fence-removal substitutions, in the order the Python code runs
them. -/
def stripFences (cs : List Char) : List Char :=
  subFence3Go false (subFenceHtmlGo false cs)

/-- The preamble scan of `_clean_gpt_artifacts`: before the first line
whose stripped form starts with `<`, blank lines and non-HTML lines are
dropped; from that first line on, every line is kept verbatim. -/
def dropPreambleGo (started : Bool) : List (List Char) → List (List Char)
  | [] => []
  | line :: rest =>
    if started then line :: dropPreambleGo started rest
    else if pyStrip line = [] then dropPreambleGo false rest
    else if (pyStrip line).head? = some '<' then line :: dropPreambleGo true rest
    else dropPreambleGo false rest

/-- The preamble scan started in its initial state (`started = False`). -/
def dropPreamble (lines : List (List Char)) : List (List Char) :=
  dropPreambleGo false lines

/-- The replacement emitted for a run of `k` consecutive newlines by
`re.sub(r"\n{3,}", "\n\n", html)`: runs of three or more newlines become
exactly two, shorter runs are kept. -/
def emitNlRun (k : Nat) : List Char :=
  if 3 ≤ k then ['\n', '\n'] else List.replicate k '\n'

/-- Scanner for `re.sub(r"\n{3,}", "\n\n", html)`; `k` counts the
newline run currently being read. -/
def collapseNlGo (k : Nat) : List Char → List Char
  | [] => emitNlRun k
  | c :: rest =>
    if c = '\n' then collapseNlGo (k + 1) rest
    else emitNlRun k ++ c :: collapseNlGo 0 rest

/-- `re.sub(r"\n{3,}", "\n\n", html)` as a whole. -/
def collapseNl (cs : List Char) : List Char := collapseNlGo 0 cs

/-- `GPTFormatterService._clean_gpt_artifacts`, statement by statement:
fence removal, preamble scan over `split("\n")`/`"\n".join`, blank-run
collapse, final `strip()`. -/
def clean_gpt_artifacts (s : String) : String :=
  String.mk (pyStrip (collapseNl (joinNl (dropPreamble (splitNl (stripFences s.data))))))

/-! ## Enumerations (`model/enums.py`) -/

/-- `ArticleTypeEnum`: the business kind of an article. -/
inductive ArticleTypeEnum
  | VACANCY
  | ASSESSMENT
  | EMAIL
  | TEST_RESULTS
  | CUSTOM
deriving DecidableEq

/-- The string value backing each `ArticleTypeEnum` member. -/
def ArticleTypeEnum.value : ArticleTypeEnum → String
  | .VACANCY => "vacancy"
  | .ASSESSMENT => "assessment"
  | .EMAIL => "email"
  | .TEST_RESULTS => "test_results"
  | .CUSTOM => "custom"

/-- `ContentModeEnum`: how the body is obtained. -/
inductive ContentModeEnum
  | FORMATTED
  | RAW
deriving DecidableEq

/-- The string value backing each `ContentModeEnum` member. -/
def ContentModeEnum.value : ContentModeEnum → String
  | .FORMATTED => "formatted"
  | .RAW => "raw"

/-- `FormatTypeEnum`: output format (currently only HTML). -/
inductive FormatTypeEnum
  | HTML
deriving DecidableEq

/-- The string value backing each `FormatTypeEnum` member. -/
def FormatTypeEnum.value : FormatTypeEnum → String
  | .HTML => "html"

/-! ## Request schema and its validator (`schema/article/article_schema.py`) -/

/-- `HtmlGenerateSchema`: the request body after field parsing, before the
`model_validator`.  Optional string fields are `Option String`. -/
structure HtmlGenerateSchema where
  article_type : ArticleTypeEnum
  content_mode : ContentModeEnum
  html_content : Option String
  raw_text : Option String
  formatting_rules : Option String
  title : String
  lang : String
  source_entity_id : Option Int
deriving DecidableEq

/-- Python truthiness of an optional string: `None` and `""` are falsy. -/
def pyTruthy : Option String → Bool
  | none => false
  | some s => s ≠ ""

/-- `HtmlGenerateSchema.validate_content_fields`: in `formatted` mode the
request must carry a truthy `html_content`, in `raw` mode a truthy
`raw_text`; otherwise a `ValueError` message is raised. -/
def validate_content_fields (s : HtmlGenerateSchema) :
    Except String HtmlGenerateSchema :=
  if s.content_mode = ContentModeEnum.FORMATTED then
    if pyTruthy s.html_content = false then
      Except.error "html_content обязателен при content_mode='formatted'"
    else Except.ok s
  else
    if pyTruthy s.raw_text = false then
      Except.error "raw_text обязателен при content_mode='raw'"
    else Except.ok s

/-! ## Errors (`core/exceptions.py` and raw collaborator exceptions)

`GPTFormattingError` and `S3UploadError` are the `AppException` kinds the
pipeline can raise; a failure of the database flush inside
`BaseRepository.create` is *not* wrapped anywhere, so it surfaces as the
collaborator's own exception, modelled by `collaborator`.  `validation`
stands for the pydantic `ValidationError` rejecting a request before the
handler runs. -/

/-- The failures a generation request can surface with. -/
inductive PipelineError
  | validation (message : String)
  | formatting (message : String)
  | upload (message : String)
  | collaborator (cause : String)
deriving DecidableEq

/-- Whether the error is one of the application's own wrapped kinds
(an `AppException` subclass) rather than a bare collaborator exception. -/
def PipelineError.isWrappedKind : PipelineError → Bool
  | .validation _ => true
  | .formatting _ => true
  | .upload _ => true
  | .collaborator _ => false

/-! ## `GPTFormatterService.format_text` -/

/-- Outcome of the OpenAI chat-completion call: either an exception from
the client, or a reply whose `message.content` may be `None`. -/
inductive GptOutcome
  | failure (exc : String)
  | reply (content : Option String)
deriving DecidableEq

/-- `GPTFormatterService.format_text`, as a function of the remote call's
outcome: client errors are wrapped into `GPTFormattingError` with the
original exception text appended; an empty cleaned result raises
`GPTFormattingError` directly; otherwise the cleaned HTML is returned. -/
def format_text (outcome : GptOutcome) : Except PipelineError String :=
  match outcome with
  | .failure exc =>
    Except.error (.formatting ("Не удалось отформатировать текст: " ++ exc))
  | .reply content =>
    let html_content := clean_gpt_artifacts (content.getD "")
    if pyStrip html_content.data = [] then
      Except.error (.formatting "GPT вернул пустой контент")
    else Except.ok html_content

/-! ## Object store (`service/s3_storage_service.py`) -/

/-- The configuration fields `get_public_url` reads (`core/config.py`).
`S3_PUBLIC_URL` is optional and checked for truthiness, as in Python. -/
structure Configs where
  S3_PUBLIC_URL : Option String
  S3_ENDPOINT : String
  S3_BUCKET_NAME : String
deriving DecidableEq

/-- Python `s.rstrip("/")`. -/
def rstripSlash (s : String) : String :=
  String.mk ((s.data.reverse.dropWhile (fun c => c = '/')).reverse)

/-- `S3StorageService.get_public_url`: pure URL derivation from the
configured public base, or from endpoint + bucket. -/
def get_public_url (cfg : Configs) (s3_key : String) : String :=
  if pyTruthy cfg.S3_PUBLIC_URL then
    rstripSlash (cfg.S3_PUBLIC_URL.getD "") ++ "/" ++ s3_key
  else
    rstripSlash cfg.S3_ENDPOINT ++ "/" ++ cfg.S3_BUCKET_NAME ++ "/" ++ s3_key

/-- The object store: the uploaded objects, as key/body pairs. -/
abbrev StoreState := List (String × String)

/-- `S3StorageService.delete_file`: best-effort delete, returns `False`
instead of raising when the client errors.  The generation pipeline never
calls it. -/
def delete_file (delete_result : Except String Unit) (s3_key : String)
    (store : StoreState) : Bool × StoreState :=
  match delete_result with
  | .error _ => (false, store)
  | .ok _ => (true, store.filter (fun kv => kv.1 ≠ s3_key))

/-! ## Database (`repository/base_repository.py`, `model/article_model.py`) -/

/-- `ArticleModel`: one row of `article.articles`. -/
structure ArticleModel where
  id : Nat
  title : String
  article_type : ArticleTypeEnum
  content_mode : ContentModeEnum
  format_type : FormatTypeEnum
  s3_key : String
  public_url : String
  source_entity_id : Option Int
  lang : String
  created_at : Nat
deriving DecidableEq

/-- The relational store: its rows, the next id the sequence will assign,
and the clock value the insert would stamp into `created_at`. -/
structure DbState where
  records : List ArticleModel
  next_id : Nat
  now : Nat
deriving DecidableEq

/-- `BaseRepository.get_by_id` (used by `ArticleService.get_article`):
`SELECT ... WHERE id = :id`, `scalar_one_or_none`. -/
def get_by_id (id : Nat) (db : DbState) : Option ArticleModel :=
  db.records.find? (fun r => r.id == id)

/-- `ArticleService.get_article`. -/
def get_article (article_id : Nat) (db : DbState) : Option ArticleModel :=
  get_by_id article_id db

/-! ## UUID hex token (`uuid.uuid4().hex`) -/

/-- The sixteen lowercase hexadecimal digit characters. -/
def hexChars : List Char := "0123456789abcdef".data

/-- The character of one hexadecimal digit. -/
def hexDigitChar (d : Nat) : Char := hexChars.getD d '0'

/-- Little-endian list of `k` hexadecimal digit characters of `n`. -/
def natToHexRev : Nat → Nat → List Char
  | _, 0 => []
  | n, k + 1 => hexDigitChar (n % 16) :: natToHexRev (n / 16) k

/-- `uuid.uuid4().hex` for a 128-bit value `n`: the 32-character
zero-padded lowercase hexadecimal encoding. -/
def uuidHex (n : Nat) : String := String.mk (natToHexRev n 32).reverse

/-- Numeric value of one lowercase hexadecimal digit character. -/
def hexVal : Char → Nat
  | '1' => 1
  | '2' => 2
  | '3' => 3
  | '4' => 4
  | '5' => 5
  | '6' => 6
  | '7' => 7
  | '8' => 8
  | '9' => 9
  | 'a' => 10
  | 'b' => 11
  | 'c' => 12
  | 'd' => 13
  | 'e' => 14
  | 'f' => 15
  | _ => 0

/-- Value of a little-endian hexadecimal digit list. -/
def hexValRev : List Char → Nat
  | [] => 0
  | c :: rest => hexVal c + 16 * hexValRev rest

/-! ## Template wrapping (`ArticleService._wrap_in_template`) -/

/-- Modelled from the spec: the Jinja template `templates/base.html` is
not among the provided sources, so the wrapper is taken from §4.2 — a
pure, deterministic function producing a complete HTML document (doctype,
`<html lang=...>`, `<head><title>…</title>…</head>`,
`<body>{bodyHtml}</body>`) with embedded baseline styling, no escaping
beyond the template mechanism's default (`autoescape=False` in the
source), the body inserted verbatim. -/
def wrap_in_template (title : String) (body_content : String)
    (lang : String) : String :=
  "<!DOCTYPE html>\n<html lang=\"" ++ lang ++ "\">\n<head>\n<meta charset=\"utf-8\">\n<title>"
    ++ title
    ++ "</title>\n<style>/* baseline styling */</style>\n</head>\n<body>\n"
    ++ body_content
    ++ "\n</body>\n</html>"

/-! ## Spec-side definitions

Definitions in this section follow the wording of spec sentences (or of
claims as amended), for comparison against the embeddings above. -/

/-- Spec wording (amended C4): the one field which `contentMode` makes
mandatory is populated — `htmlContent` non-null and non-empty in
`formatted` mode, `rawText` non-null and non-empty in `raw` mode. -/
def requiredFieldPopulated (s : HtmlGenerateSchema) : Bool :=
  match s.content_mode with
  | .FORMATTED => pyTruthy s.html_content
  | .RAW => pyTruthy s.raw_text

/-- Spec wording (amended C6), collapse step, stated over lines: a run of
`k` consecutive empty lines becomes one empty line when `k ≥ 2` and is
kept when `k ≤ 1`. -/
def emitEmptyRun (k : Nat) : List (List Char) :=
  if 2 ≤ k then [[]] else List.replicate k []

/-- Scanner for the line-level collapse; `k` counts the run of empty
lines currently being read. -/
def collapseEmptyGo (k : Nat) : List (List Char) → List (List Char)
  | [] => emitEmptyRun k
  | l :: rest =>
    if l.isEmpty then collapseEmptyGo (k + 1) rest
    else emitEmptyRun k ++ l :: collapseEmptyGo 0 rest

/-- Line-level collapse of empty-line runs, started outside a run. -/
def collapseEmptyLines (lines : List (List Char)) : List (List Char) :=
  collapseEmptyGo 0 lines

/-- The cleaning algorithm as the amended C6 claim words it: code-fence
delimiters stripped; leading lines up to the first line that, after
trimming, starts with `<` discarded; the retained lines kept verbatim
except that runs of 2 or more empty lines collapse to exactly one empty
line (single empty lines preserved); the result trimmed. -/
def cleanAmendedSpec (s : String) : String :=
  String.mk (pyStrip (joinNl (collapseEmptyLines (dropPreamble (splitNl (stripFences s.data))))))

/-! ## The orchestrator (`ArticleService.generate_html`) -/

deriving instance DecidableEq for Except

/-- One request's environment: the outcomes the external collaborators
would produce for this request, and the fresh random token.  `put_result`
is the transport outcome of `put_object` inside
`S3StorageService.upload_file`; `flush_result` is the outcome of
`session.flush()` inside `BaseRepository.create`. -/
structure GenEnv where
  gpt : GptOutcome
  put_result : Except String Unit
  flush_result : Except String Unit
  uuid4 : Nat
deriving DecidableEq

/-- Observable side effects of one request: language-model calls made,
`put_object` attempts (key and body bytes sent), rows inserted, and
`delete_object` calls made. -/
structure Effects where
  gpt_calls : Nat
  uploads : List (String × String)
  db_creates : Nat
  s3_deletes : List String
deriving DecidableEq

/-- `ArticleResponseSchema`: the response payload. -/
structure ArticleResponseSchema where
  id : Nat
  public_url : String
  article_type : String
  format_type : String
  created_at : Nat
deriving DecidableEq

/-- Result of running one generation request: the returned value or the
raised error, plus the database, object store, and effect log. -/
structure GenOutcome where
  result : Except PipelineError ArticleResponseSchema
  db : DbState
  store : StoreState
  eff : Effects
deriving DecidableEq

/-- Step 1 of `generate_html`: obtain the HTML body.  In `formatted` mode
the request's `html_content` is used as-is (validation guarantees it is a
string; `getD ""` only covers the unreachable `None`); in `raw` mode the
formatter service is called. -/
def acquireBody (data : HtmlGenerateSchema) (env : GenEnv) :
    Except PipelineError String :=
  match data.content_mode with
  | .FORMATTED => Except.ok (data.html_content.getD "")
  | .RAW => format_text env.gpt

/-- How many chat-completion calls step 1 makes. -/
def acquireGptCalls (data : HtmlGenerateSchema) : Nat :=
  match data.content_mode with
  | .FORMATTED => 0
  | .RAW => 1

/-- The S3 key generated in step 3:
`f"html/{data.article_type.value}/{file_id}.html"` with
`file_id = uuid.uuid4().hex`. -/
def s3KeyOf (data : HtmlGenerateSchema) (env : GenEnv) : String :=
  "html/" ++ data.article_type.value ++ "/" ++ uuidHex env.uuid4 ++ ".html"

/-- `ArticleService.generate_html`: acquire the body, wrap it, upload the
bytes under a fresh key, insert the metadata row, and assemble the
response.  There is no exception handling in the method itself: a failure
of any step propagates and the later steps never run.  A failed
`put_object` stores nothing; a failed `flush` leaves the table unchanged
(the session rolls back in `core/database.py`) and propagates the raw
database exception, since `BaseRepository.create` wraps nothing. -/
def generate_html (cfg : Configs) (data : HtmlGenerateSchema) (env : GenEnv)
    (db : DbState) (store : StoreState) : GenOutcome :=
  match acquireBody data env with
  | .error e =>
    { result := .error e, db := db, store := store
      eff := { gpt_calls := acquireGptCalls data, uploads := [],
               db_creates := 0, s3_deletes := [] } }
  | .ok html_body =>
    let full_html := wrap_in_template data.title html_body data.lang
    let s3_key := s3KeyOf data env
    match env.put_result with
    | .error exc =>
      { result := .error (.upload ("Не удалось загрузить файл '" ++ s3_key ++ "': " ++ exc))
        db := db, store := store
        eff := { gpt_calls := acquireGptCalls data,
                 uploads := [(s3_key, full_html)],
                 db_creates := 0, s3_deletes := [] } }
    | .ok _ =>
      let public_url := get_public_url cfg s3_key
      let store2 := store ++ [(s3_key, full_html)]
      match env.flush_result with
      | .error exc =>
        { result := .error (.collaborator exc)
          db := db, store := store2
          eff := { gpt_calls := acquireGptCalls data,
                   uploads := [(s3_key, full_html)],
                   db_creates := 0, s3_deletes := [] } }
      | .ok _ =>
        let article : ArticleModel :=
          { id := db.next_id, title := data.title
            article_type := data.article_type
            content_mode := data.content_mode
            format_type := FormatTypeEnum.HTML
            s3_key := s3_key, public_url := public_url
            source_entity_id := data.source_entity_id
            lang := data.lang, created_at := db.now }
        { result := .ok
            { id := article.id, public_url := article.public_url
              article_type := article.article_type.value
              format_type := article.format_type.value
              created_at := article.created_at }
          db := { records := db.records ++ [article],
                  next_id := db.next_id + 1, now := db.now }
          store := store2
          eff := { gpt_calls := acquireGptCalls data,
                   uploads := [(s3_key, full_html)],
                   db_creates := 1, s3_deletes := [] } }

/-- The `POST /api/v1/html/generate` endpoint: pydantic runs
`validate_content_fields` before the handler body, so an invalid request
is rejected before `generate_html` and touches no collaborator. -/
def generate_endpoint (cfg : Configs) (data : HtmlGenerateSchema)
    (env : GenEnv) (db : DbState) (store : StoreState) : GenOutcome :=
  match validate_content_fields data with
  | .error msg =>
    { result := .error (.validation msg), db := db, store := store
      eff := { gpt_calls := 0, uploads := [], db_creates := 0, s3_deletes := [] } }
  | .ok d => generate_html cfg d env db store

/-! ## Concrete fixtures used by witnesses and counterexamples -/

/-- A configuration with a public base URL set. -/
def cfgA : Configs :=
  { S3_PUBLIC_URL := some "https://cdn.example.com/"
    S3_ENDPOINT := "http://minio:9000", S3_BUCKET_NAME := "hr-articles" }

/-- A valid `formatted`-mode request. -/
def dataFmtA : HtmlGenerateSchema :=
  { article_type := ArticleTypeEnum.VACANCY
    content_mode := ContentModeEnum.FORMATTED
    html_content := some "<p>Job</p>", raw_text := none
    formatting_rules := none, title := "Backend Engineer", lang := "ru"
    source_entity_id := some 7 }

/-- A valid `raw`-mode request. -/
def dataRawA : HtmlGenerateSchema :=
  { article_type := ArticleTypeEnum.EMAIL
    content_mode := ContentModeEnum.RAW
    html_content := none, raw_text := some "hello text"
    formatting_rules := none, title := "Letter", lang := "ru"
    source_entity_id := none }

/-- An empty database. -/
def dbA : DbState := { records := [], next_id := 1, now := 1700000000 }

/-- An environment in which every collaborator succeeds. -/
def envOkA : GenEnv :=
  { gpt := GptOutcome.reply (some "Here is your HTML:\n```html\n<p>hi</p>\n```")
    put_result := Except.ok (), flush_result := Except.ok (), uuid4 := 255 }

/-- An environment whose object-store upload fails at transport level. -/
def envUpFailA : GenEnv :=
  { envOkA with put_result := Except.error "ConnectionError: minio unreachable" }

/-- An environment whose database flush fails. -/
def envDbFailA : GenEnv :=
  { envOkA with flush_result := Except.error "IntegrityError: duplicate key value" }

/-- An environment whose language-model call raises. -/
def envGptFailA : GenEnv :=
  { envOkA with gpt := GptOutcome.failure "APIConnectionError" }

/-- A `formatted`-mode request carrying a populated `raw_text` as well:
both content fields present at once. -/
def bothFieldsRequest : HtmlGenerateSchema :=
  { dataFmtA with raw_text := some "stray raw text" }

/-- A `formatted`-mode request with no `html_content`: invalid. -/
def missingContentRequest : HtmlGenerateSchema :=
  { dataFmtA with html_content := none }

/-! # Theorems -/

/-- C1: when the object-store upload step fails, `generate_html` raises
`S3UploadError` (an upload-kind error), the metadata-create step never
runs, and the database is unchanged. -/
theorem C1_upload_failure_no_record
    (cfg : Configs) (data : HtmlGenerateSchema) (env : GenEnv)
    (db : DbState) (store : StoreState) (exc : String)
    (hup : env.put_result = Except.error exc)
    (hacq : (acquireBody data env).isOk = true) :
    (∃ msg, (generate_html cfg data env db store).result
        = Except.error (PipelineError.upload msg))
    ∧ (generate_html cfg data env db store).db = db
    ∧ (generate_html cfg data env db store).eff.db_creates = 0 := by
  cases h : acquireBody data env with
  | error e => rw [h] at hacq; simp [Except.isOk, Except.toBool] at hacq
  | ok body =>
    refine ⟨⟨"Не удалось загрузить файл '" ++ s3KeyOf data env ++ "': " ++ exc, ?_⟩, ?_, ?_⟩ <;>
      simp [generate_html, h, hup]

/-- C1 witness: a concrete formatted request against a failing store. -/
theorem C1_witness :
    (∃ msg, (generate_html cfgA dataFmtA envUpFailA dbA []).result
        = Except.error (PipelineError.upload msg))
    ∧ (generate_html cfgA dataFmtA envUpFailA dbA []).db = dbA
    ∧ (generate_html cfgA dataFmtA envUpFailA dbA []).eff.db_creates = 0 :=
  C1_upload_failure_no_record cfgA dataFmtA envUpFailA dbA []
    "ConnectionError: minio unreachable" rfl rfl

/-- C3: when the upload succeeds and the database flush then fails, the
pipeline fails with the raw database error, the uploaded object stays in
the store under its key, no delete is issued, and the database is
unchanged, so no record points at the orphaned key. -/
theorem C3_no_rollback_on_persistence_failure
    (cfg : Configs) (data : HtmlGenerateSchema) (env : GenEnv)
    (db : DbState) (store : StoreState) (exc : String)
    (hacq : (acquireBody data env).isOk = true)
    (hput : env.put_result = Except.ok ())
    (hdb : env.flush_result = Except.error exc) :
    (generate_html cfg data env db store).result
        = Except.error (PipelineError.collaborator exc)
    ∧ (∃ body, (generate_html cfg data env db store).store
        = store ++ [(s3KeyOf data env, body)])
    ∧ (generate_html cfg data env db store).eff.s3_deletes = []
    ∧ (generate_html cfg data env db store).db = db
    ∧ ((∀ rec ∈ db.records, rec.s3_key ≠ s3KeyOf data env) →
        ∀ rec ∈ (generate_html cfg data env db store).db.records,
          rec.s3_key ≠ s3KeyOf data env) := by
  cases h : acquireBody data env with
  | error e => rw [h] at hacq; simp [Except.isOk, Except.toBool] at hacq
  | ok body =>
    refine ⟨?_, ⟨wrap_in_template data.title body data.lang, ?_⟩, ?_, ?_, ?_⟩ <;>
      simp [generate_html, h, hput, hdb]

/-- C3 witness: a concrete run whose flush fails after a successful
upload. -/
theorem C3_witness :
    (generate_html cfgA dataFmtA envDbFailA dbA []).result
        = Except.error (PipelineError.collaborator "IntegrityError: duplicate key value")
    ∧ (∃ body, (generate_html cfgA dataFmtA envDbFailA dbA []).store
        = [] ++ [(s3KeyOf dataFmtA envDbFailA, body)])
    ∧ (generate_html cfgA dataFmtA envDbFailA dbA []).eff.s3_deletes = []
    ∧ (generate_html cfgA dataFmtA envDbFailA dbA []).db = dbA
    ∧ ((∀ rec ∈ dbA.records, rec.s3_key ≠ s3KeyOf dataFmtA envDbFailA) →
        ∀ rec ∈ (generate_html cfgA dataFmtA envDbFailA dbA []).db.records,
          rec.s3_key ≠ s3KeyOf dataFmtA envDbFailA) :=
  C3_no_rollback_on_persistence_failure cfgA dataFmtA envDbFailA dbA []
    "IntegrityError: duplicate key value" rfl rfl rfl


/-- C2 counterexample: with a concrete request whose upload succeeds and
whose database flush then raises, the pipeline surfaces the raw
collaborator exception — not a wrapped application error kind (no
`PersistenceError` exists in the code). -/
theorem C2_counterexample :
    (generate_html cfgA dataFmtA envDbFailA dbA []).result
        = Except.error (PipelineError.collaborator "IntegrityError: duplicate key value")
    ∧ PipelineError.isWrappedKind
        (PipelineError.collaborator "IntegrityError: duplicate key value") = false :=
  ⟨rfl, rfl⟩

/-- C2 (amended): a failure in content acquisition is wrapped into
`GPTFormattingError` and a failure in upload into `S3UploadError`, each
aborting the pipeline at once with the original cause kept in the
message; a failure of the database flush in the metadata-create step also
aborts at once but propagates as the unwrapped collaborator exception. -/
theorem C2_amended_wrapping
    (cfg : Configs) (data : HtmlGenerateSchema) (env : GenEnv)
    (db : DbState) (store : StoreState) :
    (data.content_mode = ContentModeEnum.RAW →
      ∀ exc, env.gpt = GptOutcome.failure exc →
        (generate_html cfg data env db store).result
          = Except.error (PipelineError.formatting
              ("Не удалось отформатировать текст: " ++ exc))
        ∧ (generate_html cfg data env db store).eff.uploads = []
        ∧ (generate_html cfg data env db store).eff.db_creates = 0
        ∧ (generate_html cfg data env db store).db = db
        ∧ (generate_html cfg data env db store).store = store)
    ∧ (∀ exc, (acquireBody data env).isOk = true →
        env.put_result = Except.error exc →
        (generate_html cfg data env db store).result
          = Except.error (PipelineError.upload
              ("Не удалось загрузить файл '" ++ s3KeyOf data env ++ "': " ++ exc))
        ∧ (generate_html cfg data env db store).eff.db_creates = 0
        ∧ (generate_html cfg data env db store).db = db)
    ∧ (∀ exc, (acquireBody data env).isOk = true →
        env.put_result = Except.ok () →
        env.flush_result = Except.error exc →
        (generate_html cfg data env db store).result
          = Except.error (PipelineError.collaborator exc)
        ∧ PipelineError.isWrappedKind (PipelineError.collaborator exc) = false
        ∧ (generate_html cfg data env db store).db = db) := by
  refine ⟨?_, ?_, ?_⟩
  · intro hmode exc hgpt
    refine ⟨?_, ?_, ?_, ?_, ?_⟩ <;>
      simp [generate_html, acquireBody, hmode, hgpt, format_text]
  · intro exc hacq hput
    cases h : acquireBody data env with
    | error e => rw [h] at hacq; simp [Except.isOk, Except.toBool] at hacq
    | ok body => refine ⟨?_, ?_, ?_⟩ <;> simp [generate_html, h, hput]
  · intro exc hacq hput hdb
    cases h : acquireBody data env with
    | error e => rw [h] at hacq; simp [Except.isOk, Except.toBool] at hacq
    | ok body =>
      refine ⟨?_, rfl, ?_⟩ <;> simp [generate_html, h, hput, hdb]

/-- C2 witness: the three abort shapes at concrete inputs — a raised
language-model call, a failed upload, a failed flush. -/
theorem C2_witness :
    ((generate_html cfgA dataRawA envGptFailA dbA []).result
        = Except.error (PipelineError.formatting
            ("Не удалось отформатировать текст: " ++ "APIConnectionError")))
    ∧ ((generate_html cfgA dataFmtA envUpFailA dbA []).result
        = Except.error (PipelineError.upload
            ("Не удалось загрузить файл '" ++ s3KeyOf dataFmtA envUpFailA ++ "': "
              ++ "ConnectionError: minio unreachable")))
    ∧ ((generate_html cfgA dataFmtA envDbFailA dbA []).result
        = Except.error (PipelineError.collaborator "IntegrityError: duplicate key value")) :=
  ⟨((C2_amended_wrapping cfgA dataRawA envGptFailA dbA []).1 rfl
      "APIConnectionError" rfl).1,
   ((C2_amended_wrapping cfgA dataFmtA envUpFailA dbA []).2.1
      "ConnectionError: minio unreachable" rfl rfl).1,
   ((C2_amended_wrapping cfgA dataFmtA envDbFailA dbA []).2.2
      "IntegrityError: duplicate key value" rfl rfl rfl).1⟩

/-- C4 counterexample: a `formatted`-mode request with *both* content
fields populated passes validation, so validation success is not
equivalent to "exactly one of the two fields is populated". -/
theorem C4_counterexample :
    (validate_content_fields bothFieldsRequest).isOk = true
    ∧ bothFieldsRequest.content_mode = ContentModeEnum.FORMATTED
    ∧ pyTruthy bothFieldsRequest.html_content = true
    ∧ pyTruthy bothFieldsRequest.raw_text = true :=
  ⟨rfl, rfl, rfl, rfl⟩

/-- C4 (amended): validation succeeds exactly when the field that
`content_mode` makes mandatory is populated (the other field is not
required to be empty), and a request failing validation is rejected
before any pipeline step: no language-model call, no upload attempt, no
row insert, database and store untouched. -/
theorem C4_amended_validation (s : HtmlGenerateSchema) :
    ((validate_content_fields s).isOk = requiredFieldPopulated s)
    ∧ (∀ cfg env db store, (validate_content_fields s).isOk = false →
        (∃ msg, (generate_endpoint cfg s env db store).result
            = Except.error (PipelineError.validation msg))
        ∧ (generate_endpoint cfg s env db store).db = db
        ∧ (generate_endpoint cfg s env db store).store = store
        ∧ (generate_endpoint cfg s env db store).eff.gpt_calls = 0
        ∧ (generate_endpoint cfg s env db store).eff.uploads = []
        ∧ (generate_endpoint cfg s env db store).eff.db_creates = 0) := by
  constructor
  · cases hm : s.content_mode with
    | FORMATTED =>
      cases h : pyTruthy s.html_content <;>
        simp [validate_content_fields, requiredFieldPopulated, hm, h,
          Except.isOk, Except.toBool]
    | RAW =>
      cases h : pyTruthy s.raw_text <;>
        simp [validate_content_fields, requiredFieldPopulated, hm, h,
          Except.isOk, Except.toBool]
  · intro cfg env db store hfail
    cases hv : validate_content_fields s with
    | error msg =>
      refine ⟨⟨msg, ?_⟩, ?_, ?_, ?_, ?_, ?_⟩ <;> simp [generate_endpoint, hv]
    | ok d => rw [hv] at hfail; simp [Except.isOk, Except.toBool] at hfail

/-- C4 witness: a concrete `formatted` request with no `html_content`
fails validation and produces no side effects. -/
theorem C4_witness :
    ((validate_content_fields missingContentRequest).isOk
        = requiredFieldPopulated missingContentRequest)
    ∧ ((∃ msg, (generate_endpoint cfgA missingContentRequest envOkA dbA []).result
          = Except.error (PipelineError.validation msg))
        ∧ (generate_endpoint cfgA missingContentRequest envOkA dbA []).db = dbA
        ∧ (generate_endpoint cfgA missingContentRequest envOkA dbA []).store = []
        ∧ (generate_endpoint cfgA missingContentRequest envOkA dbA []).eff.gpt_calls = 0
        ∧ (generate_endpoint cfgA missingContentRequest envOkA dbA []).eff.uploads = []
        ∧ (generate_endpoint cfgA missingContentRequest envOkA dbA []).eff.db_creates = 0) :=
  ⟨(C4_amended_validation missingContentRequest).1,
   (C4_amended_validation missingContentRequest).2 cfgA envOkA dbA [] rfl⟩

/-- The pipeline makes exactly the language-model calls of its
content-acquisition step, in every branch. -/
theorem generate_gpt_calls (cfg : Configs) (data : HtmlGenerateSchema)
    (env : GenEnv) (db : DbState) (store : StoreState) :
    (generate_html cfg data env db store).eff.gpt_calls = acquireGptCalls data := by
  cases h : acquireBody data env with
  | error e => simp [generate_html, h]
  | ok body =>
    cases hp : env.put_result with
    | error e => simp [generate_html, h, hp]
    | ok u => cases hf : env.flush_result <;> simp [generate_html, h, hp, hf]

/-- Once the body is acquired, the one upload attempted sends the
template-wrapped body under the generated key, whatever the store or the
database then do. -/
theorem generate_uploads_of_ok (cfg : Configs) (data : HtmlGenerateSchema)
    (env : GenEnv) (db : DbState) (store : StoreState) (body : String)
    (h : acquireBody data env = Except.ok body) :
    (generate_html cfg data env db store).eff.uploads
      = [(s3KeyOf data env, wrap_in_template data.title body data.lang)] := by
  cases hp : env.put_result with
  | error e => simp [generate_html, h, hp]
  | ok u => cases hf : env.flush_result <;> simp [generate_html, h, hp, hf]

/-- C5: in `formatted` mode with non-empty `html_content`, no
language-model call is made, the result is independent of the
language-model collaborator, and the bytes sent to the object store are
exactly the template-wrapped form of `html_content`, which embeds the
body verbatim. -/
theorem C5_formatted_passthrough
    (cfg : Configs) (data : HtmlGenerateSchema) (env : GenEnv)
    (db : DbState) (store : StoreState) (h : String)
    (hmode : data.content_mode = ContentModeEnum.FORMATTED)
    (hcontent : data.html_content = some h) (_hne : h ≠ "") :
    (generate_html cfg data env db store).eff.gpt_calls = 0
    ∧ (generate_html cfg data env db store).eff.uploads
        = [(s3KeyOf data env, wrap_in_template data.title h data.lang)]
    ∧ (∃ pre post, wrap_in_template data.title h data.lang = pre ++ h ++ post)
    ∧ (∀ g, generate_html cfg data { env with gpt := g } db store
        = generate_html cfg data env db store) := by
  have hacq : acquireBody data env = Except.ok h := by
    simp [acquireBody, hmode, hcontent]
  refine ⟨?_, ?_, ?_, ?_⟩
  · rw [generate_gpt_calls]; simp [acquireGptCalls, hmode]
  · exact generate_uploads_of_ok cfg data env db store h hacq
  · refine ⟨"<!DOCTYPE html>\n<html lang=\"" ++ data.lang
        ++ "\">\n<head>\n<meta charset=\"utf-8\">\n<title>" ++ data.title
        ++ "</title>\n<style>/* baseline styling */</style>\n</head>\n<body>\n",
      "\n</body>\n</html>", ?_⟩
    simp [wrap_in_template, String.append_assoc]
  · intro g
    have hacq2 : acquireBody data { env with gpt := g } = Except.ok h := by
      simp [acquireBody, hmode, hcontent]
    simp [generate_html, hacq, hacq2, s3KeyOf]

/-- C5 witness: the concrete formatted request. -/
theorem C5_witness :
    (generate_html cfgA dataFmtA envOkA dbA []).eff.gpt_calls = 0
    ∧ (generate_html cfgA dataFmtA envOkA dbA []).eff.uploads
        = [(s3KeyOf dataFmtA envOkA,
            wrap_in_template dataFmtA.title "<p>Job</p>" dataFmtA.lang)]
    ∧ (∃ pre post, wrap_in_template dataFmtA.title "<p>Job</p>" dataFmtA.lang
        = pre ++ "<p>Job</p>" ++ post)
    ∧ (∀ g, generate_html cfgA dataFmtA { envOkA with gpt := g } dbA []
        = generate_html cfgA dataFmtA envOkA dbA []) :=
  C5_formatted_passthrough cfgA dataFmtA envOkA dbA [] "<p>Job</p>" rfl rfl
    (by decide)

/-- A string strips to nothing exactly when every character is
whitespace (the check `not html_content.strip()` in `format_text` against
the spec's "empty/whitespace-only"). -/
theorem pyStrip_eq_nil_iff (cs : List Char) :
    pyStrip cs = [] ↔ ∀ c ∈ cs, pySpace c := by
  unfold pyStrip pyLStrip pyRStrip
  constructor
  · intro h c hc
    have hall : ∀ x ∈ (cs.reverse.dropWhile pySpace).reverse, pySpace x :=
      List.dropWhile_eq_nil_iff.mp h
    have hx : c ∈ cs.reverse := List.mem_reverse.mpr hc
    rw [← List.takeWhile_append_dropWhile pySpace cs.reverse] at hx
    rcases List.mem_append.mp hx with h1 | h2
    · exact List.mem_takeWhile_imp h1
    · exact hall c (List.mem_reverse.mpr h2)
  · intro h
    have hd : cs.reverse.dropWhile pySpace = [] :=
      List.dropWhile_eq_nil_iff.mpr (fun x hx => h x (List.mem_reverse.mp hx))
    rw [hd]
    rfl

/-- C7: `format_text` fails (always with a formatting-kind error) exactly
when the remote call raised or the cleaned output is empty or
whitespace-only; otherwise it returns the cleaned, non-empty HTML. -/
theorem C7_format_failure_iff (o : GptOutcome) :
    ((∃ msg, format_text o = Except.error (PipelineError.formatting msg)) ↔
      (∃ exc, o = GptOutcome.failure exc)
      ∨ (∃ c, o = GptOutcome.reply c
          ∧ ∀ ch ∈ (clean_gpt_artifacts (c.getD "")).data, pySpace ch))
    ∧ (∀ c, o = GptOutcome.reply c →
        (¬ ∀ ch ∈ (clean_gpt_artifacts (c.getD "")).data, pySpace ch) →
        format_text o = Except.ok (clean_gpt_artifacts (c.getD ""))
        ∧ clean_gpt_artifacts (c.getD "") ≠ "") := by
  constructor
  · cases o with
    | failure exc =>
      constructor
      · intro _
        exact Or.inl ⟨exc, rfl⟩
      · intro _
        exact ⟨"Не удалось отформатировать текст: " ++ exc, rfl⟩
    | reply c =>
      by_cases hs : pyStrip (clean_gpt_artifacts (c.getD "")).data = []
      · constructor
        · intro _
          exact Or.inr ⟨c, rfl, (pyStrip_eq_nil_iff _).mp hs⟩
        · intro _
          exact ⟨"GPT вернул пустой контент", by simp [format_text, hs]⟩
      · constructor
        · rintro ⟨msg, hmsg⟩
          simp [format_text, hs] at hmsg
        · rintro (⟨exc, h⟩ | ⟨c2, hc2, hall⟩)
          · simp at h
          · injection hc2 with h2
            subst h2
            exact absurd ((pyStrip_eq_nil_iff _).mpr hall) hs
  · intro c hc hnot
    subst hc
    have hs : ¬ pyStrip (clean_gpt_artifacts (c.getD "")).data = [] :=
      fun h => hnot ((pyStrip_eq_nil_iff _).mp h)
    refine ⟨by simp [format_text, hs], ?_⟩
    intro he
    apply hnot
    rw [he]
    intro ch hch
    simp at hch

/-- C7 witness: the flagship reply formats successfully to non-empty
HTML. -/
theorem C7_witness :
    format_text (GptOutcome.reply (some "Here is your HTML:\n```html\n<p>hi</p>\n```"))
      = Except.ok (clean_gpt_artifacts
          ((some "Here is your HTML:\n```html\n<p>hi</p>\n```").getD ""))
    ∧ clean_gpt_artifacts
        ((some "Here is your HTML:\n```html\n<p>hi</p>\n```").getD "") ≠ "" :=
  (C7_format_failure_iff
      (GptOutcome.reply (some "Here is your HTML:\n```html\n<p>hi</p>\n```"))).2
    (some "Here is your HTML:\n```html\n<p>hi</p>\n```") rfl (by decide)

/-- `natToHexRev` produces exactly `k` digits. -/
theorem natToHexRev_length (k : Nat) : ∀ n, (natToHexRev n k).length = k := by
  induction k with
  | zero => intro n; rfl
  | succ k ih => intro n; simp [natToHexRev, ih]

/-- Every emitted digit character is a lowercase hexadecimal digit. -/
theorem hexDigitChar_mem (d : Nat) : hexDigitChar d ∈ hexChars := by
  unfold hexDigitChar
  by_cases h : d < 16
  · interval_cases d <;> decide
  · have hlen : hexChars.length ≤ d := by
      simp only [hexChars, List.length]
      omega
    rw [List.getD_eq_default _ _ hlen]
    decide

/-- All characters of `natToHexRev` are lowercase hexadecimal digits. -/
theorem natToHexRev_mem (k : Nat) :
    ∀ n, ∀ c ∈ natToHexRev n k, c ∈ hexChars := by
  induction k with
  | zero => intro n c hc; cases hc
  | succ k ih =>
    intro n c hc
    rcases List.mem_cons.mp hc with h | h
    · rw [h]; exact hexDigitChar_mem _
    · exact ih _ c h

/-- Decoding one emitted digit gives the digit back. -/
theorem hexVal_hexDigitChar (d : Nat) (h : d < 16) :
    hexVal (hexDigitChar d) = d := by
  interval_cases d <;> rfl

/-- `natToHexRev` is a radix-16 encoding: decoding recovers the value. -/
theorem hexValRev_natToHexRev (k : Nat) :
    ∀ n, n < 16 ^ k → hexValRev (natToHexRev n k) = n := by
  induction k with
  | zero =>
    intro n h
    have hn : n = 0 := by simpa using h
    subst hn; rfl
  | succ k ih =>
    intro n h
    have hdiv : n / 16 < 16 ^ k := by
      rw [Nat.div_lt_iff_lt_mul (by omega : 0 < 16)]
      calc n < 16 ^ (k + 1) := h
        _ = 16 ^ k * 16 := by rw [Nat.pow_succ]
    simp only [natToHexRev, hexValRev]
    rw [hexVal_hexDigitChar _ (Nat.mod_lt _ (by omega)), ih _ hdiv]
    exact Nat.mod_add_div n 16

/-- `uuidHex` is injective on 128-bit values. -/
theorem uuidHex_inj (m n : Nat) (hm : m < 2 ^ 128) (hn : n < 2 ^ 128)
    (h : uuidHex m = uuidHex n) : m = n := by
  have h16 : (16 : Nat) ^ 32 = 2 ^ 128 := by norm_num
  rw [uuidHex, uuidHex] at h
  injection h with hd
  have hd2 : natToHexRev m 32 = natToHexRev n 32 := List.reverse_injective hd
  have hv := congrArg hexValRev hd2
  rwa [hexValRev_natToHexRev 32 m (by rw [h16]; exact hm),
    hexValRev_natToHexRev 32 n (by rw [h16]; exact hn)] at hv

/-- C8: the one uploaded key is exactly
`"html/" ++ articleType ++ "/" ++ hex(token) ++ ".html"` where the hex
part is the 32-character lowercase hexadecimal encoding of the fresh
128-bit token (an injective encoding on 128-bit values), and the key is a
function of the article type and the token only. -/
theorem C8_key_scheme
    (cfg : Configs) (data : HtmlGenerateSchema) (env : GenEnv)
    (db : DbState) (store : StoreState)
    (hacq : (acquireBody data env).isOk = true)
    (htok : env.uuid4 < 2 ^ 128) :
    ((generate_html cfg data env db store).eff.uploads.map Prod.fst
        = [s3KeyOf data env])
    ∧ s3KeyOf data env
        = "html/" ++ data.article_type.value ++ "/" ++ uuidHex env.uuid4 ++ ".html"
    ∧ (uuidHex env.uuid4).length = 32
    ∧ (∀ ch ∈ (uuidHex env.uuid4).data, ch ∈ hexChars)
    ∧ (∀ m, m < 2 ^ 128 → uuidHex m = uuidHex env.uuid4 → m = env.uuid4)
    ∧ (∀ data2 env2, data2.article_type = data.article_type →
        env2.uuid4 = env.uuid4 → s3KeyOf data2 env2 = s3KeyOf data env) := by
  refine ⟨?_, rfl, ?_, ?_, ?_, ?_⟩
  · cases h : acquireBody data env with
    | error e => rw [h] at hacq; simp [Except.isOk, Except.toBool] at hacq
    | ok body => rw [generate_uploads_of_ok cfg data env db store body h]; rfl
  · simp [uuidHex, String.length, natToHexRev_length]
  · intro ch hch
    have : ch ∈ natToHexRev env.uuid4 32 := by
      have := hch
      rw [uuidHex] at this
      exact List.mem_reverse.mp this
    exact natToHexRev_mem 32 env.uuid4 ch this
  · intro m hm h
    exact uuidHex_inj m env.uuid4 hm htok h
  · intro data2 env2 h1 h2
    simp [s3KeyOf, h1, h2]

/-- C8 witness: the concrete formatted run. -/
theorem C8_witness :
    ((generate_html cfgA dataFmtA envOkA dbA []).eff.uploads.map Prod.fst
        = [s3KeyOf dataFmtA envOkA])
    ∧ s3KeyOf dataFmtA envOkA
        = "html/" ++ dataFmtA.article_type.value ++ "/"
            ++ uuidHex envOkA.uuid4 ++ ".html"
    ∧ (uuidHex envOkA.uuid4).length = 32
    ∧ (∀ ch ∈ (uuidHex envOkA.uuid4).data, ch ∈ hexChars)
    ∧ (∀ m, m < 2 ^ 128 → uuidHex m = uuidHex envOkA.uuid4 → m = envOkA.uuid4)
    ∧ (∀ data2 env2, data2.article_type = dataFmtA.article_type →
        env2.uuid4 = envOkA.uuid4 → s3KeyOf data2 env2 = s3KeyOf dataFmtA envOkA) :=
  C8_key_scheme cfgA dataFmtA envOkA dbA [] rfl (by simp [envOkA])

/-- Looking up an id that no element of the prefix carries reaches the
appended element. -/
theorem find?_append_singleton {α : Type} (p : α → Bool) (l : List α) (x : α)
    (h : ∀ a ∈ l, p a = false) (hx : p x = true) :
    (l ++ [x]).find? p = some x := by
  induction l with
  | nil => simp [List.find?, hx]
  | cons a t ih =>
    have ha : p a = false := h a (List.mem_cons_self a t)
    simp only [List.cons_append, List.find?, ha]
    exact ih (fun b hb => h b (List.mem_cons_of_mem a hb))

/-- C9: a successful generation followed by `get_article` on the returned
id finds a record whose `public_url` and `article_type` equal the
response's values exactly (for any database whose existing ids are below
the id the insert will assign). -/
theorem C9_roundtrip
    (cfg : Configs) (data : HtmlGenerateSchema) (env : GenEnv)
    (db : DbState) (store : StoreState) (resp : ArticleResponseSchema)
    (hwf : ∀ rec ∈ db.records, rec.id < db.next_id)
    (hok : (generate_html cfg data env db store).result = Except.ok resp) :
    ∃ rec, get_article resp.id (generate_html cfg data env db store).db = some rec
      ∧ rec.public_url = resp.public_url
      ∧ rec.article_type.value = resp.article_type := by
  cases h : acquireBody data env with
  | error e => rw [generate_html, h] at hok; simp at hok
  | ok body =>
    cases hp : env.put_result with
    | error e => rw [generate_html, h] at hok; simp [hp] at hok
    | ok u =>
      cases hf : env.flush_result with
      | error e => rw [generate_html, h] at hok; simp [hp, hf] at hok
      | ok v =>
        rw [generate_html, h] at hok
        simp only [hp, hf, Except.ok.injEq] at hok
        refine ⟨⟨db.next_id, data.title, data.article_type, data.content_mode,
          FormatTypeEnum.HTML, s3KeyOf data env,
          get_public_url cfg (s3KeyOf data env), data.source_entity_id,
          data.lang, db.now⟩, ?_, ?_, ?_⟩
        · rw [generate_html, h]
          simp only [hp, hf]
          rw [get_article, get_by_id]
          simp only
          rw [← hok]
          simp only
          apply find?_append_singleton
          · intro a ha
            have := hwf a ha
            simp only [beq_eq_false_iff_ne, ne_eq]
            omega
          · simp
        · rw [← hok]
        · rw [← hok]

/-- C9 witness: the concrete all-success run against the empty
database. -/
theorem C9_witness :
    ∃ rec, get_article
        (ArticleResponseSchema.id
          { id := 1
            public_url := "https://cdn.example.com/html/vacancy/000000000000000000000000000000ff.html"
            article_type := "vacancy", format_type := "html"
            created_at := 1700000000 })
        (generate_html cfgA dataFmtA envOkA dbA []).db = some rec
      ∧ rec.public_url = ArticleResponseSchema.public_url
          { id := 1
            public_url := "https://cdn.example.com/html/vacancy/000000000000000000000000000000ff.html"
            article_type := "vacancy", format_type := "html"
            created_at := 1700000000 }
      ∧ rec.article_type.value = ArticleResponseSchema.article_type
          { id := 1
            public_url := "https://cdn.example.com/html/vacancy/000000000000000000000000000000ff.html"
            article_type := "vacancy", format_type := "html"
            created_at := 1700000000 } :=
  C9_roundtrip cfgA dataFmtA envOkA dbA []
    { id := 1
      public_url := "https://cdn.example.com/html/vacancy/000000000000000000000000000000ff.html"
      article_type := "vacancy", format_type := "html"
      created_at := 1700000000 }
    (by intro rec hrec; cases hrec) (by decide)

/-- When no line qualifies as an HTML start, the preamble scan discards
every line. -/
theorem dropPreambleGo_eq_nil (lines : List (List Char))
    (h : ∀ l ∈ lines, ¬ (pyStrip l).head? = some '<') :
    dropPreambleGo false lines = [] := by
  induction lines with
  | nil => rfl
  | cons line rest ih =>
    have hline := h line (List.mem_cons_self line rest)
    have hrest := ih (fun l hl => h l (List.mem_cons_of_mem line hl))
    by_cases hs : pyStrip line = []
    · simp [dropPreambleGo, hs, hrest]
    · simp [dropPreambleGo, hs, hline, hrest]

/-- C10: a non-empty model reply in which, after fence removal, no line
starts (after trimming) with `<` cleans to the empty string, so a
raw-mode request fails with the empty-content `GPTFormattingError` and
produces no upload and no database write. -/
theorem C10_preamble_only_reply_rejected
    (cfg : Configs) (data : HtmlGenerateSchema) (env : GenEnv)
    (db : DbState) (store : StoreState) (s : String)
    (hmode : data.content_mode = ContentModeEnum.RAW)
    (hgpt : env.gpt = GptOutcome.reply (some s))
    (_hne : s ≠ "")
    (hnoline : ∀ l ∈ splitNl (stripFences s.data), ¬ (pyStrip l).head? = some '<') :
    clean_gpt_artifacts s = ""
    ∧ (generate_html cfg data env db store).result
        = Except.error (PipelineError.formatting "GPT вернул пустой контент")
    ∧ (generate_html cfg data env db store).eff.uploads = []
    ∧ (generate_html cfg data env db store).eff.db_creates = 0
    ∧ (generate_html cfg data env db store).db = db
    ∧ (generate_html cfg data env db store).store = store := by
  have hclean : clean_gpt_artifacts s = "" := by
    rw [clean_gpt_artifacts, dropPreamble, dropPreambleGo_eq_nil _ hnoline]
    rfl
  have hfmt : format_text env.gpt
      = Except.error (PipelineError.formatting "GPT вернул пустой контент") := by
    rw [hgpt, format_text]
    simp only [Option.getD_some, hclean]
    rfl
  have hacq : acquireBody data env
      = Except.error (PipelineError.formatting "GPT вернул пустой контент") := by
    rw [acquireBody, hmode, hfmt]
  refine ⟨hclean, ?_, ?_, ?_, ?_, ?_⟩ <;> simp [generate_html, hacq]

/-- C10 witness: a concrete reply with text but no HTML tag line. -/
theorem C10_witness :
    clean_gpt_artifacts "I am unable to format this text today." = ""
    ∧ (generate_html cfgA dataRawA
          { envOkA with
            gpt := GptOutcome.reply (some "I am unable to format this text today.") }
          dbA []).result
        = Except.error (PipelineError.formatting "GPT вернул пустой контент")
    ∧ (generate_html cfgA dataRawA
          { envOkA with
            gpt := GptOutcome.reply (some "I am unable to format this text today.") }
          dbA []).eff.uploads = []
    ∧ (generate_html cfgA dataRawA
          { envOkA with
            gpt := GptOutcome.reply (some "I am unable to format this text today.") }
          dbA []).eff.db_creates = 0
    ∧ (generate_html cfgA dataRawA
          { envOkA with
            gpt := GptOutcome.reply (some "I am unable to format this text today.") }
          dbA []).db = dbA
    ∧ (generate_html cfgA dataRawA
          { envOkA with
            gpt := GptOutcome.reply (some "I am unable to format this text today.") }
          dbA []).store = [] :=
  C10_preamble_only_reply_rejected cfgA dataRawA
    { envOkA with
      gpt := GptOutcome.reply (some "I am unable to format this text today.") }
    dbA [] "I am unable to format this text today." rfl rfl (by decide) (by decide)

/-- C6 counterexample: a reply whose two HTML lines are separated by two
blank lines.  The claim says runs of fewer than three blank lines are
preserved; the code collapses this run of two to a single blank line. -/
theorem C6_counterexample :
    clean_gpt_artifacts "<p>a</p>\n\n\n<p>b</p>" = "<p>a</p>\n\n<p>b</p>"
    ∧ clean_gpt_artifacts "<p>a</p>\n\n\n<p>b</p>" ≠ "<p>a</p>\n\n\n<p>b</p>" := by
  constructor
  · decide
  · decide

/-- Splitting `dropWhile` over an append: the left part either strips
away entirely or survives with the right part untouched. -/
theorem dropWhile_append_eq {α : Type} [DecidableEq α] (p : α → Bool) (y l : List α) :
    List.dropWhile p (y ++ l)
      = if List.dropWhile p y = [] then List.dropWhile p l
        else List.dropWhile p y ++ l := by
  induction y with
  | nil => simp
  | cons c t ih =>
    cases hc : p c with
    | true => simpa [List.dropWhile, hc] using ih
    | false => simp [List.dropWhile, hc]

/-- How `pyRStrip` acts on an append. -/
theorem pyRStrip_append (x z : List Char) :
    pyRStrip (x ++ z)
      = if pyRStrip z = [] then pyRStrip x else x ++ pyRStrip z := by
  unfold pyRStrip
  rw [List.reverse_append, dropWhile_append_eq]
  by_cases h : List.dropWhile pySpace z.reverse = []
  · rw [if_pos h, if_pos (by rw [h]; rfl)]
  · rw [if_neg h, if_neg (by simpa using h), List.reverse_append,
      List.reverse_reverse]

/-- A list of whitespace strips from the right to nothing. -/
theorem pyRStrip_all_space (w : List Char) (hw : ∀ c ∈ w, pySpace c) :
    pyRStrip w = [] := by
  unfold pyRStrip
  rw [List.dropWhile_eq_nil_iff.mpr (fun x hx => hw x (List.mem_reverse.mp hx))]
  rfl

/-- Appending whitespace does not change the right-stripped value. -/
theorem pyRStrip_append_ws (x w : List Char) (hw : ∀ c ∈ w, pySpace c) :
    pyRStrip (x ++ w) = pyRStrip x := by
  rw [pyRStrip_append, if_pos (pyRStrip_all_space w hw)]

/-- `pyRStrip` after a common prefix is a congruence. -/
theorem pyRStrip_congr_append (x A B : List Char)
    (h : pyRStrip A = pyRStrip B) :
    pyRStrip (x ++ A) = pyRStrip (x ++ B) := by
  rw [pyRStrip_append, pyRStrip_append, h]

/-- Every character of `emitNlRun` is whitespace. -/
theorem emitNlRun_all_space (m : Nat) : ∀ c ∈ emitNlRun m, pySpace c := by
  intro c hc
  unfold emitNlRun at hc
  by_cases h : 3 ≤ m
  · rw [if_pos h] at hc
    have hc2 : c = '\n' := by simpa using hc
    subst hc2
    decide
  · rw [if_neg h] at hc
    rw [List.eq_of_mem_replicate hc]
    decide

/-- `joinNl` on a cons with non-empty tail. -/
theorem joinNl_cons_ne (a : List Char) (R : List (List Char)) (h : R ≠ []) :
    joinNl (a :: R) = a ++ '\n' :: joinNl R := by
  cases R with
  | nil => exact absurd rfl h
  | cons b t => rfl

/-- `joinNl` over a leading block of empty lines. -/
theorem joinNl_rep_append (k : Nat) (R : List (List Char)) (h : R ≠ []) :
    joinNl (List.replicate k [] ++ R) = List.replicate k '\n' ++ joinNl R := by
  induction k with
  | zero => simp
  | succ k ih =>
    rw [List.replicate_succ, List.cons_append,
      joinNl_cons_ne _ _ (by simp [h]), ih]
    rfl

/-- `joinNl` over a trailing block of empty lines after one line. -/
theorem joinNl_cons_replicate (k : Nat) :
    ∀ l, joinNl (l :: List.replicate k []) = l ++ List.replicate k '\n' := by
  induction k with
  | zero => intro l; simp [joinNl]
  | succ k ih =>
    intro l
    rw [List.replicate_succ, joinNl_cons_ne _ _ (by simp), ih []]
    simp [List.replicate_succ]

/-- `joinNl` over a trailing block of empty lines. -/
theorem joinNl_append_replicate (M : List (List Char)) (j : Nat) (hM : M ≠ []) :
    joinNl (M ++ List.replicate j []) = joinNl M ++ List.replicate j '\n' := by
  induction M with
  | nil => exact absurd rfl hM
  | cons a M' ih =>
    cases hM' : M' with
    | nil => simpa using joinNl_cons_replicate j a
    | cons b t =>
      rw [List.cons_append, joinNl_cons_ne _ _ (by simp),
        joinNl_cons_ne _ _ (by simp [hM']), ← hM', ih (by simp [hM'])]
      simp

/-- The head character of `joinNl` on a non-empty first line. -/
theorem joinNl_head (b : List Char) (X : List (List Char)) (hb : b ≠ []) :
    (joinNl (b :: X)).head? = b.head? := by
  cases b with
  | nil => exact absurd rfl hb
  | cons c b' =>
    cases X with
    | nil => rfl
    | cons x t => rfl

/-- A run of newlines feeds the scanner's counter. -/
theorem collapseNlGo_nl_feed (m : Nat) :
    ∀ k x, collapseNlGo k (List.replicate m '\n' ++ x) = collapseNlGo (k + m) x := by
  induction m with
  | zero => intro k x; rfl
  | succ m ih =>
    intro k x
    rw [List.replicate_succ, List.cons_append]
    show collapseNlGo k ('\n' :: (List.replicate m '\n' ++ x)) = _
    rw [collapseNlGo, if_pos rfl, ih (k + 1) x]
    congr 1
    omega

/-- Newline-free text passes through the collapse scanner unchanged. -/
theorem collapseNl_noNl_append (a x : List Char)
    (h : ∀ c ∈ a, ¬ c = '\n') :
    collapseNlGo 0 (a ++ x) = a ++ collapseNlGo 0 x := by
  induction a with
  | nil => rfl
  | cons c a' ih =>
    have hc : ¬ c = '\n' := h c (List.mem_cons_self c a')
    rw [List.cons_append, collapseNlGo, if_neg hc,
      ih (fun d hd => h d (List.mem_cons_of_mem c hd))]
    rfl

/-- A maximal newline run before non-newline text collapses to its
`emitNlRun`. -/
theorem collapseNl_run_append (m : Nat) (x : List Char)
    (hx : ¬ x.head? = some '\n') :
    collapseNlGo 0 (List.replicate m '\n' ++ x)
      = emitNlRun m ++ collapseNlGo 0 x := by
  rw [collapseNlGo_nl_feed m 0 x]
  cases x with
  | nil => simp [collapseNlGo, emitNlRun]
  | cons c t =>
    have hc : ¬ c = '\n' := by
      intro h
      exact hx (by rw [h]; rfl)
    rw [collapseNlGo, if_neg hc, collapseNlGo, if_neg hc]
    simp [emitNlRun]

/-- A run of empty lines feeds the line scanner's counter. -/
theorem collapseEmptyGo_empty_feed (m : Nat) :
    ∀ k R, collapseEmptyGo k (List.replicate m [] ++ R)
      = collapseEmptyGo (k + m) R := by
  induction m with
  | zero => intro k R; rfl
  | succ m ih =>
    intro k R
    rw [List.replicate_succ, List.cons_append]
    show collapseEmptyGo k ([] :: (List.replicate m [] ++ R)) = _
    rw [collapseEmptyGo, if_pos (by decide), ih (k + 1) R]
    congr 1
    omega

/-- A non-empty line restarts the line scanner. -/
theorem collapseEmptyGo_cons_ne (l : List Char) (rest : List (List Char))
    (hl : ¬ l = []) :
    collapseEmptyGo 0 (l :: rest) = l :: collapseEmptyGo 0 rest := by
  rw [collapseEmptyGo, if_neg (by simpa [List.isEmpty_iff] using hl)]
  rfl

/-- `emitEmptyRun` for a positive count is one empty line. -/
theorem emitEmptyRun_pos (k : Nat) : emitEmptyRun (k + 1) = [[]] := by
  cases k with
  | zero => rfl
  | succ k => rw [emitEmptyRun, if_pos (by omega)]

/-- Joining an emitted empty-line run gives whitespace only — in fact
nothing, since the run is at most one empty line. -/
theorem joinNl_emitEmptyRun (m : Nat) : joinNl (emitEmptyRun m) = [] := by
  cases m with
  | zero => rfl
  | succ m => rw [emitEmptyRun_pos]; rfl

/-- Up to right-stripping, `joinNl` of a cons always looks like the line,
a newline, and the joined tail. -/
theorem rstrip_joinNl_cons (l : List Char) (A : List (List Char)) :
    pyRStrip (joinNl (l :: A)) = pyRStrip (l ++ '\n' :: joinNl A) := by
  cases A with
  | nil =>
    have hw : ∀ c ∈ ['\n'], pySpace c := by
      intro c hc
      have hc2 : c = '\n' := by simpa using hc
      subst hc2
      decide
    show pyRStrip l = pyRStrip (l ++ ['\n'])
    rw [pyRStrip_append_ws l ['\n'] hw]
  | cons b t => rfl

/-- Right-stripping after `joinNl` is a congruence in the joined tail. -/
theorem joinNl_cons_congr (l : List Char) (A B : List (List Char))
    (h : pyRStrip (joinNl A) = pyRStrip (joinNl B)) :
    pyRStrip (joinNl (l :: A)) = pyRStrip (joinNl (l :: B)) := by
  rw [rstrip_joinNl_cons, rstrip_joinNl_cons]
  have h2 := pyRStrip_congr_append ['\n'] _ _ h
  have h3 := pyRStrip_congr_append l _ _ h2
  simpa using h3

/-- Trailing newlines do not change the right-stripped collapse result. -/
theorem collapseNl_tail (j : Nat) :
    ∀ X k, pyRStrip (collapseNlGo k (X ++ List.replicate j '\n'))
      = pyRStrip (collapseNlGo k X) := by
  intro X
  induction X with
  | nil =>
    intro k
    simp only [List.nil_append]
    rw [show List.replicate j '\n' = List.replicate j '\n' ++ [] by simp,
      collapseNlGo_nl_feed j k []]
    show pyRStrip (emitNlRun (k + j)) = pyRStrip (emitNlRun k)
    rw [pyRStrip_all_space _ (emitNlRun_all_space (k + j)),
      pyRStrip_all_space _ (emitNlRun_all_space k)]
  | cons c X' ih =>
    intro k
    by_cases hc : c = '\n'
    · subst hc
      rw [List.cons_append, collapseNlGo, if_pos rfl, collapseNlGo, if_pos rfl]
      exact ih (k + 1)
    · rw [List.cons_append, collapseNlGo, if_neg hc, collapseNlGo, if_neg hc]
      have h2 := pyRStrip_congr_append (emitNlRun k ++ [c]) _ _ (ih 0)
      simpa [List.append_assoc] using h2

/-- Trailing empty lines do not change the right-stripped joined
line-level collapse result. -/
theorem collapseEmpty_tail (j : Nat) :
    ∀ R k, pyRStrip (joinNl (collapseEmptyGo k (R ++ List.replicate j [])))
      = pyRStrip (joinNl (collapseEmptyGo k R)) := by
  intro R
  induction R with
  | nil =>
    intro k
    simp only [List.nil_append]
    rw [show List.replicate j ([] : List Char) = List.replicate j [] ++ [] by simp,
      collapseEmptyGo_empty_feed j k []]
    show pyRStrip (joinNl (emitEmptyRun (k + j)))
        = pyRStrip (joinNl (emitEmptyRun k))
    rw [joinNl_emitEmptyRun, joinNl_emitEmptyRun]
  | cons l R' ih =>
    intro k
    by_cases hl : l = []
    · subst hl
      rw [List.cons_append, collapseEmptyGo, if_pos (by decide),
        collapseEmptyGo, if_pos (by decide)]
      exact ih (k + 1)
    · rw [List.cons_append, collapseEmptyGo,
        if_neg (by simpa [List.isEmpty_iff] using hl),
        collapseEmptyGo, if_neg (by simpa [List.isEmpty_iff] using hl)]
      cases k with
      | zero =>
        show pyRStrip (joinNl (l :: collapseEmptyGo 0 (R' ++ List.replicate j [])))
            = pyRStrip (joinNl (l :: collapseEmptyGo 0 R'))
        exact joinNl_cons_congr l _ _ (ih 0)
      | succ k =>
        rw [emitEmptyRun_pos]
        show pyRStrip (joinNl ([] :: l :: collapseEmptyGo 0 (R' ++ List.replicate j [])))
            = pyRStrip (joinNl ([] :: l :: collapseEmptyGo 0 R'))
        exact joinNl_cons_congr [] _ _ (joinNl_cons_congr l _ _ (ih 0))

/-- `dropWhile` either empties the list or exposes a head violating the
predicate. -/
theorem dropWhile_head_not {α : Type} (p : α → Bool) :
    ∀ l : List α, l.dropWhile p = [] ∨
      ∃ a t, l.dropWhile p = a :: t ∧ p a = false := by
  intro l
  induction l with
  | nil => exact Or.inl rfl
  | cons c t ih =>
    cases hc : p c with
    | true =>
      rw [List.dropWhile_cons, if_pos hc]
      exact ih
    | false =>
      rw [List.dropWhile_cons, if_neg (by simp [hc])]
      exact Or.inr ⟨c, t, rfl, hc⟩

/-- The newline run the string scanner emits for a run of `k + 1`
newlines equals the joined form of the empty-line run the line scanner
emits for `k` empty lines, plus the separating newline. -/
theorem emitNlRun_succ (k : Nat) :
    emitNlRun (k + 1) = List.replicate ((if 2 ≤ k then 1 else k) + 1) '\n' := by
  rcases k with _ | _ | k
  · decide
  · decide
  · rw [emitNlRun, if_pos (by omega), if_pos (by omega)]
    decide

/-- `emitEmptyRun` in replicate form. -/
theorem emitEmptyRun_eq_replicate (k : Nat) :
    emitEmptyRun k = List.replicate (if 2 ≤ k then 1 else k) [] := by
  by_cases h : 2 ≤ k
  · simp [emitEmptyRun, h]
  · simp [emitEmptyRun, h]

/-- Interior equivalence: on a line list whose first line is non-empty
and whose last line is non-empty, collapsing newline runs after joining
equals joining after collapsing empty-line runs — exactly. -/
theorem collapse_interior :
    ∀ (n : Nat) (M : List (List Char)), M.length ≤ n →
    (∀ l ∈ M, ∀ c ∈ l, ¬ c = '\n') →
    (M = [] ∨ ∃ a t, M = a :: t ∧ a ≠ []) →
    ¬ M.getLast? = some [] →
    collapseNlGo 0 (joinNl M) = joinNl (collapseEmptyGo 0 M) := by
  intro n
  induction n with
  | zero =>
    intro M hlen _ _ _
    have hM : M = [] := List.length_eq_zero.mp (Nat.le_zero.mp hlen)
    subst hM
    rfl
  | succ n ih =>
    intro M hlen hno hhead hlast
    cases M with
    | nil => rfl
    | cons a rest =>
      have ha : a ≠ [] := by
        rcases hhead with h | ⟨a2, t2, heq, ha2⟩
        · cases h
        · injection heq with h1 h2
          rwa [h1]
      cases rest with
      | nil =>
        have hfix : collapseNlGo 0 a = a := by
          have h2 := collapseNl_noNl_append a [] (hno a (List.mem_cons_self a []))
          simpa [collapseNlGo, emitNlRun] using h2
        show collapseNlGo 0 (joinNl [a]) = joinNl (collapseEmptyGo 0 [a])
        rw [show joinNl [a] = a from rfl, hfix, collapseEmptyGo_cons_ne a [] ha]
        rfl
      | cons b' t' =>
        have hrestne : b' :: t' ≠ ([] : List (List Char)) := by simp
        have htake : (b' :: t').takeWhile (fun l => l.isEmpty)
            = List.replicate ((b' :: t').takeWhile (fun l => l.isEmpty)).length [] := by
          apply List.eq_replicate_of_mem
          intro b hb
          have hbe := List.mem_takeWhile_imp hb
          exact List.isEmpty_iff.mp hbe
        have hsplit : b' :: t'
            = List.replicate ((b' :: t').takeWhile (fun l => l.isEmpty)).length []
              ++ (b' :: t').dropWhile (fun l => l.isEmpty) := by
          conv_lhs => rw [← List.takeWhile_append_dropWhile (fun l => l.isEmpty) (b' :: t')]
          rw [← htake]
        rcases dropWhile_head_not (fun l => l.isEmpty) (b' :: t') with hnil | hcons
        · exfalso
          rw [hnil, List.append_nil] at hsplit
          have hk1 : ((b' :: t').takeWhile (fun l => l.isEmpty)).length ≠ 0 := by
            intro h0
            rw [h0] at hsplit
            exact hrestne hsplit
          obtain ⟨k0, hk0⟩ := Nat.exists_eq_succ_of_ne_zero hk1
          apply hlast
          rw [List.getLast?_cons_cons, hsplit, hk0, List.replicate_succ',
            List.getLast?_append_of_ne_nil _ (by simp)]
          rfl
        · obtain ⟨b, rest₂, hb, hbne0⟩ := hcons
          have hbne : b ≠ [] := by
            intro h0
            rw [h0] at hbne0
            simp at hbne0
          have hmemrest : ∀ l ∈ (b' :: t').dropWhile (fun x => x.isEmpty),
              l ∈ a :: b' :: t' := by
            intro l hl
            have hmem2 : l ∈ b' :: t' := by
              rw [hsplit]
              exact List.mem_append_right _ hl
            exact List.mem_cons_of_mem a hmem2
          have hlen2 : ((b' :: t').dropWhile (fun l => l.isEmpty)).length ≤ n := by
            have hlenM : (b' :: t').length ≤ n := by
              have := hlen
              simp only [List.length_cons] at this ⊢
              omega
            have heq := congrArg List.length hsplit
            rw [List.length_append, List.length_replicate] at heq
            omega
          have hlastr : ¬ ((b' :: t').dropWhile (fun l => l.isEmpty)).getLast?
              = some [] := by
            intro h0
            apply hlast
            rw [List.getLast?_cons_cons]
            conv_lhs => rw [hsplit]
            rw [List.getLast?_append_of_ne_nil _ (by rw [hb]; simp)]
            exact h0
          have ihr : collapseNlGo 0 (joinNl ((b' :: t').dropWhile (fun l => l.isEmpty)))
              = joinNl (collapseEmptyGo 0 ((b' :: t').dropWhile (fun l => l.isEmpty))) := by
            apply ih _ hlen2
            · intro l hl c hc
              exact hno l (hmemrest l hl) c hc
            · exact Or.inr ⟨b, rest₂, hb, hbne⟩
            · exact hlastr
          have hheadjoin : ¬ (joinNl ((b' :: t').dropWhile (fun l => l.isEmpty))).head?
              = some '\n' := by
            rw [hb, joinNl_head b rest₂ hbne]
            cases b with
            | nil => exact absurd rfl hbne
            | cons c b2 =>
              intro h0
              have hc : c = '\n' := by simpa using h0
              have hmem : (c :: b2) ∈ a :: b' :: t' := by
                apply hmemrest
                rw [hb]
                exact List.mem_cons_self _ _
              exact hno (c :: b2) hmem c (List.mem_cons_self c b2) hc
          have hCE : collapseEmptyGo 0 (b' :: t')
              = emitEmptyRun ((b' :: t').takeWhile (fun l => l.isEmpty)).length
                ++ collapseEmptyGo 0 ((b' :: t').dropWhile (fun l => l.isEmpty)) := by
            conv_lhs => rw [hsplit]
            rw [collapseEmptyGo_empty_feed _ 0 _, Nat.zero_add, hb]
            rw [collapseEmptyGo_cons_ne b rest₂ hbne]
            rw [collapseEmptyGo, if_neg (by simp [hbne0])]
          have htailne : emitEmptyRun ((b' :: t').takeWhile (fun l => l.isEmpty)).length
              ++ collapseEmptyGo 0 ((b' :: t').dropWhile (fun l => l.isEmpty)) ≠ [] := by
            rw [hb, collapseEmptyGo_cons_ne b rest₂ hbne]
            simp
          have hYne : collapseEmptyGo 0 ((b' :: t').dropWhile (fun l => l.isEmpty)) ≠ [] := by
            rw [hb, collapseEmptyGo_cons_ne b rest₂ hbne]
            simp
          calc collapseNlGo 0 (joinNl (a :: b' :: t'))
              = collapseNlGo 0 (a ++ '\n' :: joinNl (b' :: t')) := by
                rw [joinNl_cons_ne a _ hrestne]
            _ = collapseNlGo 0 (a ++ (List.replicate
                  (((b' :: t').takeWhile (fun l => l.isEmpty)).length + 1) '\n'
                  ++ joinNl ((b' :: t').dropWhile (fun l => l.isEmpty)))) := by
                conv_lhs => rw [hsplit]
                rw [joinNl_rep_append _ _ (by rw [hb]; simp), List.replicate_succ]
                rfl
            _ = a ++ collapseNlGo 0 (List.replicate
                  (((b' :: t').takeWhile (fun l => l.isEmpty)).length + 1) '\n'
                  ++ joinNl ((b' :: t').dropWhile (fun l => l.isEmpty))) := by
                exact collapseNl_noNl_append a _ (hno a (List.mem_cons_self a _))
            _ = a ++ (emitNlRun (((b' :: t').takeWhile (fun l => l.isEmpty)).length + 1)
                  ++ collapseNlGo 0 (joinNl ((b' :: t').dropWhile (fun l => l.isEmpty)))) := by
                rw [collapseNl_run_append _ _ hheadjoin]
            _ = a ++ (emitNlRun (((b' :: t').takeWhile (fun l => l.isEmpty)).length + 1)
                  ++ joinNl (collapseEmptyGo 0 ((b' :: t').dropWhile (fun l => l.isEmpty)))) := by
                rw [ihr]
            _ = joinNl (collapseEmptyGo 0 (a :: b' :: t')) := by
                rw [collapseEmptyGo_cons_ne a _ ha, hCE,
                  joinNl_cons_ne a _ htailne,
                  emitEmptyRun_eq_replicate, joinNl_rep_append _ _ hYne,
                  emitNlRun_succ]
                rw [List.replicate_succ]
                rfl

/-- Lines produced by `splitNl` contain no newline characters. -/
theorem splitNl_no_nl : ∀ cs : List Char, ∀ l ∈ splitNl cs, ∀ c ∈ l, ¬ c = '\n' := by
  intro cs
  induction cs with
  | nil =>
    intro l hl c hc
    have h0 : l = [] := by simpa [splitNl] using hl
    subst h0
    cases hc
  | cons d rest ih =>
    intro l hl c hc
    rw [splitNl] at hl
    by_cases hd : d = '\n'
    · rw [if_pos hd] at hl
      rcases List.mem_cons.mp hl with h | h
      · subst h; cases hc
      · exact ih l h c hc
    · rw [if_neg hd] at hl
      cases hsr : splitNl rest with
      | nil =>
        simp only [hsr] at hl
        have h0 : l = [d] := by simpa using hl
        subst h0
        have h1 : c = d := by simpa using hc
        subst h1
        exact hd
      | cons l0 ls =>
        simp only [hsr] at hl
        rcases List.mem_cons.mp hl with h | h
        · subst h
          rcases List.mem_cons.mp hc with h2 | h2
          · subst h2; exact hd
          · exact ih l0 (by rw [hsr]; exact List.mem_cons_self _ _) c h2
        · exact ih l (by rw [hsr]; exact List.mem_cons_of_mem _ h) c hc

/-- The preamble scan only keeps lines of its input. -/
theorem dropPreambleGo_subset :
    ∀ (lines : List (List Char)) (b : Bool) (l : List Char),
      l ∈ dropPreambleGo b lines → l ∈ lines := by
  intro lines
  induction lines with
  | nil => intro b l h; cases h
  | cons line rest ih =>
    intro b l h
    cases b with
    | true =>
      rw [dropPreambleGo, if_pos rfl] at h
      rcases List.mem_cons.mp h with h2 | h2
      · subst h2; exact List.mem_cons_self _ _
      · exact List.mem_cons_of_mem _ (ih true l h2)
    | false =>
      rw [dropPreambleGo, if_neg (by simp)] at h
      by_cases hs : pyStrip line = []
      · rw [if_pos hs] at h
        exact List.mem_cons_of_mem _ (ih false l h)
      · rw [if_neg hs] at h
        by_cases hh : (pyStrip line).head? = some '<'
        · rw [if_pos hh] at h
          rcases List.mem_cons.mp h with h2 | h2
          · subst h2; exact List.mem_cons_self _ _
          · exact List.mem_cons_of_mem _ (ih true l h2)
        · rw [if_neg hh] at h
          exact List.mem_cons_of_mem _ (ih false l h)

/-- The preamble scan's output is empty or starts with a line that does
not strip to nothing. -/
theorem dropPreamble_head :
    ∀ lines : List (List Char),
      dropPreambleGo false lines = [] ∨
      ∃ a t, dropPreambleGo false lines = a :: t ∧ a ≠ [] := by
  intro lines
  induction lines with
  | nil => exact Or.inl rfl
  | cons line rest ih =>
    rw [dropPreambleGo, if_neg (by simp)]
    by_cases hs : pyStrip line = []
    · rw [if_pos hs]; exact ih
    · rw [if_neg hs]
      by_cases hh : (pyStrip line).head? = some '<'
      · rw [if_pos hh]
        refine Or.inr ⟨line, _, rfl, ?_⟩
        intro h0
        apply hs
        rw [h0]
        rfl
      · rw [if_neg hh]; exact ih

/-- Every line list splits into a prefix with no trailing empty line and
a block of trailing empty lines. -/
theorem exists_decomp (L : List (List Char)) :
    ∃ M j, L = M ++ List.replicate j [] ∧ ¬ M.getLast? = some [] := by
  induction L using List.reverseRecOn with
  | nil => exact ⟨[], 0, rfl, by simp⟩
  | append_singleton l a ihl =>
    by_cases ha : a = ([] : List Char)
    · obtain ⟨M, j, hMj, hM⟩ := ihl
      subst ha
      refine ⟨M, j + 1, ?_, hM⟩
      rw [hMj, List.replicate_succ', ← List.append_assoc]
    · refine ⟨l ++ [a], 0, by simp, ?_⟩
      rw [List.getLast?_append_of_ne_nil _ (by simp)]
      simp [ha]

/-- C6 (amended): the cleaning step computes exactly — fences stripped,
leading non-HTML lines discarded, retained lines kept verbatim except
that runs of 2 or more empty lines collapse to exactly one empty line
(single empty lines preserved), result trimmed — and on the flagship
reply the cleaned body is exactly `<p>hi</p>`. -/
theorem C6_amended_clean_eq_spec :
    (∀ s : String, clean_gpt_artifacts s = cleanAmendedSpec s)
    ∧ clean_gpt_artifacts "Here is your HTML:\n```html\n<p>hi</p>\n```"
        = "<p>hi</p>" := by
  constructor
  · intro s
    rw [clean_gpt_artifacts, cleanAmendedSpec]
    apply congrArg String.mk
    show pyLStrip (pyRStrip (collapseNlGo 0
        (joinNl (dropPreambleGo false (splitNl (stripFences s.data))))))
      = pyLStrip (pyRStrip
        (joinNl (collapseEmptyGo 0 (dropPreambleGo false (splitNl (stripFences s.data))))))
    apply congrArg pyLStrip
    have hno : ∀ l ∈ dropPreambleGo false (splitNl (stripFences s.data)),
        ∀ c ∈ l, ¬ c = '\n' := by
      intro l hl c hc
      exact splitNl_no_nl _ l (dropPreambleGo_subset _ false l hl) c hc
    rcases dropPreamble_head (splitNl (stripFences s.data)) with hLnil | hLcons
    · rw [hLnil]
      rfl
    · obtain ⟨a, t, hLa, hane⟩ := hLcons
      obtain ⟨M, j, hMj, hMlast⟩ :=
        exists_decomp (dropPreambleGo false (splitNl (stripFences s.data)))
      have hMne : M ≠ [] := by
        intro h0
        have h2 := hMj
        rw [hLa, h0, List.nil_append] at h2
        cases j with
        | zero => simp at h2
        | succ j2 =>
          rw [List.replicate_succ] at h2
          injection h2 with h3 _
          exact hane h3
      have hnoM : ∀ l ∈ M, ∀ c ∈ l, ¬ c = '\n' := by
        intro l hl c hc
        apply hno l _ c hc
        rw [hMj]
        exact List.mem_append_left _ hl
      have hheadM : M = [] ∨ ∃ a' t', M = a' :: t' ∧ a' ≠ [] := by
        cases M with
        | nil => exact absurd rfl hMne
        | cons m0 mt =>
          have h2 := hMj
          rw [hLa, List.cons_append] at h2
          injection h2 with hm0 _
          exact Or.inr ⟨m0, mt, rfl, by rw [← hm0]; exact hane⟩
      calc pyRStrip (collapseNlGo 0
            (joinNl (dropPreambleGo false (splitNl (stripFences s.data)))))
          = pyRStrip (collapseNlGo 0 (joinNl M ++ List.replicate j '\n')) := by
            rw [hMj, joinNl_append_replicate M j hMne]
        _ = pyRStrip (collapseNlGo 0 (joinNl M)) := collapseNl_tail j (joinNl M) 0
        _ = pyRStrip (joinNl (collapseEmptyGo 0 M)) :=
            congrArg pyRStrip
              (collapse_interior M.length M Nat.le.refl hnoM hheadM hMlast)
        _ = pyRStrip (joinNl (collapseEmptyGo 0 (M ++ List.replicate j []))) :=
            (collapseEmpty_tail j M 0).symm
        _ = pyRStrip (joinNl (collapseEmptyGo 0
            (dropPreambleGo false (splitNl (stripFences s.data))))) := by
            rw [hMj]
  · decide
